import Mathlib

/-!
Shallow embedding of the haproxy-k8s-sync controller (Go) in Lean 4.

Modelled source files:
* `pkg/haproxy/sync.go` — endpoint-to-backend mapping and SyncBackends.
* `pkg/haproxy/dataplane_client.go` — the HAProxy Data Plane API client.
* `internal/controller/controller.go` — the reconciliation loop.
* a repository variant of `sync.go` that names servers through `serverName`
  (namespace `variant` below).

Go machine integers (`int32`, `int64`) are modelled as `Int`; all values
involved (ports, configuration versions, HTTP status codes) are far from the
overflow boundary and the Go code performs no wrapping arithmetic on them.
Go maps used only for lookups (`nodeIPs map[string]string`) are modelled as
association lists with `List.lookup`. Errors are modelled as `String`
messages mirroring the `fmt.Errorf` formats; `%w`-wrapping becomes string
concatenation with the same prefix label.
-/

namespace HaproxySync

/-- `BackendServer` from `pkg/haproxy` — desired state of one backend server
slot as pushed to the Data Plane API. -/
structure BackendServer where
  name : String
  address : String
  port : Int
  weight : Nat
  check : Bool
deriving Repr, DecidableEq

/-- `HealthCheckConfig` from `pkg/haproxy`. -/
structure HealthCheckConfig where
  intervalSeconds : Int
  riseCount : Int
  fallCount : Int
deriving Repr, DecidableEq

/-- `discoveryv1.EndpointConditions`: the optional readiness flag. -/
structure EndpointConditions where
  ready : Option Bool
deriving Repr, DecidableEq

/-- `discoveryv1.Endpoint`: addresses plus conditions and optional node name. -/
structure Endpoint where
  addresses : List String
  conditions : EndpointConditions
  nodeName : Option String
deriving Repr, DecidableEq

/-- `discoveryv1.EndpointPort`: the port number is a nullable pointer. -/
structure EndpointPort where
  port : Option Int
deriving Repr, DecidableEq

/-- `discoveryv1.EndpointSlice` restricted to the fields the mapper reads. -/
structure EndpointSlice where
  ports : List EndpointPort
  endpoints : List Endpoint
deriving Repr, DecidableEq

/-- `corev1.EndpointAddress` (legacy flat shape): IP plus optional node name. -/
structure EndpointAddress where
  ip : String
  nodeName : Option String
deriving Repr, DecidableEq

/-- `corev1.EndpointPort` (legacy flat shape): the port is a plain `int32`. -/
structure CoreEndpointPort where
  port : Int
deriving Repr, DecidableEq

/-- `corev1.EndpointSubset`. -/
structure EndpointSubset where
  addresses : List EndpointAddress
  ports : List CoreEndpointPort
deriving Repr, DecidableEq

/-- `corev1.Endpoints` restricted to the fields the mapper reads. -/
structure Endpoints where
  subsets : List EndpointSubset
deriving Repr, DecidableEq

/-- `resolveAddress` from `pkg/haproxy/sync.go`: substitute the node's
internal IP when the node name is known and maps to a non-empty address. -/
def resolveAddress (original : String) (nodeName : Option String)
    (nodeIPs : List (String × String)) : String :=
  match nodeName with
  | some n =>
    match nodeIPs.lookup n with
    | some ip => if ip ≠ "" then ip else original
    | none => original
  | none => original

/-- `selectPort` from `pkg/haproxy/sync.go`: a positive override wins, else
the advertised port, else 0. -/
def selectPort (found : Option Int) (override : Int) : Int :=
  if override > 0 then override
  else
    match found with
    | some p => p
    | none => 0

/-- The server record emitted for one address at
`pkg/haproxy/sync.go:85-91`: `Name` and `Address` both use the resolved
host. -/
def mkServer (host : String) (p : Int) : BackendServer :=
  { name := s!"{host}-{p}", address := host, port := p, weight := 1,
    check := true }

/-- Inner loop of `BuildBackendsFromEndpointSlices` over one endpoint entry:
skip entries whose ready flag is present and false, then emit one server per
address. -/
def sliceEndpointServers (portNum : Int) (overridePort : Int)
    (nodeIPs : List (String × String)) (ep : Endpoint) : List BackendServer :=
  if ep.conditions.ready = some false then []
  else
    let p := selectPort (some portNum) overridePort
    ep.addresses.map fun addr => mkServer (resolveAddress addr ep.nodeName nodeIPs) p

/-- `BuildBackendsFromEndpointSlices` from `pkg/haproxy/sync.go`: iterate
slices, then ports (skipping nil ports), then endpoints, then addresses. -/
def BuildBackendsFromEndpointSlices (slices : List EndpointSlice)
    (nodeIPs : List (String × String)) (overridePort : Int) : List BackendServer :=
  slices.flatMap fun slice =>
    slice.ports.flatMap fun port =>
      match port.port with
      | none => []
      | some portNum =>
        slice.endpoints.flatMap (sliceEndpointServers portNum overridePort nodeIPs)

/-- `BuildBackendsFromEndpoints` from `pkg/haproxy/sync.go`: iterate
endpoints, subsets, ports, addresses; no readiness filter, port is never nil. -/
def BuildBackendsFromEndpoints (endpoints : List Endpoints)
    (nodeIPs : List (String × String)) (overridePort : Int) : List BackendServer :=
  endpoints.flatMap fun ep =>
    ep.subsets.flatMap fun subset =>
      subset.ports.flatMap fun port =>
        let p := selectPort (some port.port) overridePort
        subset.addresses.map fun addr =>
          mkServer (resolveAddress addr.ip addr.nodeName nodeIPs) p

/-- Backend-list derivation inside `Syncer.Sync` (`pkg/haproxy/sync.go:28-37`):
the slice-derived list, falling back to the legacy list when it is empty. -/
def syncDerivedBackends (slices : List EndpointSlice) (endpoints : List Endpoints)
    (nodeIPs : List (String × String)) (overridePort : Int) : List BackendServer :=
  let backends := BuildBackendsFromEndpointSlices slices nodeIPs overridePort
  if backends.length = 0 then BuildBackendsFromEndpoints endpoints nodeIPs overridePort
  else backends

/-! ## The `serverName` variant of the mapper

The repository also carries a variant of `sync.go` whose emitted server
names come from `serverName(address, nodeName, port)` — the node name when
present and non-empty, otherwise the raw (unresolved) address — and whose
`BackendServer` carries a `SendProxyV2` flag. -/

namespace variant

/-- `BackendServer` of the variant `sync.go`: adds the `SendProxyV2` flag. -/
structure BackendServer where
  name : String
  address : String
  port : Int
  weight : Nat
  check : Bool
  sendProxyV2 : Bool
deriving Repr, DecidableEq

/-- `serverName` from the variant `sync.go`: node name when present and
non-empty, else the raw address, then `-port`. -/
def serverName (address : String) (nodeName : Option String) (port : Int) : String :=
  let name :=
    match nodeName with
    | some n => if n ≠ "" then n else address
    | none => address
  s!"{name}-{port}"

/-- Per-endpoint emission of the variant `BuildBackendsFromEndpointSlices`:
the name comes from `serverName` on the raw address, the address from
`resolveAddress`. -/
def sliceEndpointServers (portNum : Int) (overridePort : Int)
    (nodeIPs : List (String × String)) (sendProxyV2 : Bool) (ep : Endpoint) :
    List BackendServer :=
  if ep.conditions.ready = some false then []
  else
    let p := selectPort (some portNum) overridePort
    ep.addresses.map fun addr =>
      { name := serverName addr ep.nodeName p,
        address := resolveAddress addr ep.nodeName nodeIPs,
        port := p, weight := 1, check := true, sendProxyV2 := sendProxyV2 }

/-- Variant `BuildBackendsFromEndpointSlices` (with `serverName` naming). -/
def BuildBackendsFromEndpointSlices (slices : List EndpointSlice)
    (nodeIPs : List (String × String)) (overridePort : Int) (sendProxyV2 : Bool) :
    List BackendServer :=
  slices.flatMap fun slice =>
    slice.ports.flatMap fun port =>
      match port.port with
      | none => []
      | some portNum =>
        slice.endpoints.flatMap
          (sliceEndpointServers portNum overridePort nodeIPs sendProxyV2)

end variant

/-! ## SyncBackends (`pkg/haproxy/sync.go:40-65`)

The `Client` interface is abstracted as an oracle giving each call's
response; `SyncBackends` is modelled as a function returning the final
result (`none` = success, `some msg` = the returned error) together with the
ordered trace of client calls it made. -/

/-- One call made by `SyncBackends` on the `Client` interface. -/
inductive Call where
  | beginTx : Call
  | updateBackends (txID : String) (backends : List BackendServer) : Call
  | updateHealth (txID : String) (health : HealthCheckConfig) : Call
  | commit (txID : String) : Call
  | abort (txID : String) : Call
deriving Repr, DecidableEq

/-- Oracle for the `Client` interface: the response each method would return
(errors as `some message` / `Except.error message`). -/
structure ClientSpec where
  beginTransaction : Except String String
  updateBackendsInTransaction : String → List BackendServer → Option String
  updateHealthChecksInTransaction : String → HealthCheckConfig → Option String
  commitTransaction : String → Option String
  abortTransaction : String → Option String

/-- `Syncer.SyncBackends`: begin a transaction, apply backends, apply health
checks, commit; on the first error abort (deferred, result ignored) and
return the error wrapped with the stage label. -/
def SyncBackends (c : ClientSpec) (backends : List BackendServer)
    (health : HealthCheckConfig) : Option String × List Call :=
  match c.beginTransaction with
  | .error e => (some ("beginning transaction: " ++ e), [.beginTx])
  | .ok txID =>
    match c.updateBackendsInTransaction txID backends with
    | some e =>
      (some ("updating backends: " ++ e),
       [.beginTx, .updateBackends txID backends, .abort txID])
    | none =>
      match c.updateHealthChecksInTransaction txID health with
      | some e =>
        (some ("updating health checks: " ++ e),
         [.beginTx, .updateBackends txID backends, .updateHealth txID health,
          .abort txID])
      | none =>
        match c.commitTransaction txID with
        | some e =>
          (some ("committing transaction: " ++ e),
           [.beginTx, .updateBackends txID backends, .updateHealth txID health,
            .commit txID, .abort txID])
        | none =>
          (none,
           [.beginTx, .updateBackends txID backends, .updateHealth txID health,
            .commit txID])

/-! ## Data Plane client (`pkg/haproxy/dataplane_client.go`) -/

/-- An error returned by `doRequest`: either an `apiStatusError` (non-2xx/3xx
status with truncated body) or any other failure (transport, encode, decode)
carrying its message. -/
inductive ReqError where
  | apiStatus (statusCode : Nat) (body : String) : ReqError
  | other (msg : String) : ReqError
deriving Repr, DecidableEq

/-- `apiStatusError.Error()` / plain error message. -/
def ReqError.message : ReqError → String
  | .apiStatus code body => s!"status {code}: {body}"
  | .other msg => msg

/-- `errors.As(err, &apiErr) && apiErr.statusCode == http.StatusNotFound`. -/
def ReqError.isNotFound : ReqError → Bool
  | .apiStatus code _ => code == 404
  | .other _ => false

/-- `checkState` from `dataplane_client.go`. -/
def checkState (enabled : Bool) : String :=
  if enabled then "enabled" else "disabled"

/-- `serverPayload`: the JSON body sent for one server. -/
structure ServerPayload where
  name : String
  address : String
  port : Int
  weight : Nat
  check : String
deriving Repr, DecidableEq

/-- The payload built from a `BackendServer` in
`UpdateBackendsInTransaction`. -/
def toPayload (b : BackendServer) : ServerPayload :=
  { name := b.name, address := b.address, port := b.port, weight := b.weight,
    check := checkState b.check }

/-- One HTTP request issued by `UpdateBackendsInTransaction`: an
update-in-place `PUT` or a fallback create `POST`, both carrying the same
payload. -/
inductive ServerReq where
  | put (payload : ServerPayload) : ServerReq
  | post (payload : ServerPayload) : ServerReq
deriving Repr, DecidableEq

/-- Oracle for the two server endpoints: the response of the update `PUT`
and of the create `POST` for a given server payload (`none` = 2xx). -/
structure ServerApi where
  update : BackendServer → Option ReqError
  create : BackendServer → Option ReqError

/-- `UpdateBackendsInTransaction` body: for each server try the update
`PUT`; on a 404 `apiStatusError` fall back to one create `POST` with the
same payload and continue on its success; return the first non-404 update
error or create error wrapped with the server name. Result pairs the
returned error (`none` = success) with the ordered request trace. -/
def UpdateBackendsInTransaction (api : ServerApi) :
    List BackendServer → Option String × List ServerReq
  | [] => (none, [])
  | b :: rest =>
    let payload := toPayload b
    match api.update b with
    | none =>
      ((UpdateBackendsInTransaction api rest).1,
       .put payload :: (UpdateBackendsInTransaction api rest).2)
    | some e =>
      if e.isNotFound then
        match api.create b with
        | none =>
          ((UpdateBackendsInTransaction api rest).1,
           .put payload :: .post payload :: (UpdateBackendsInTransaction api rest).2)
        | some ce =>
          (some (s!"create server {b.name}: " ++ ce.message),
           [.put payload, .post payload])
      else
        (some (s!"update server {b.name}: " ++ e.message), [.put payload])

/-! ### Version fetch and transaction begin

`decodeVersion` reads the body and tries `json.Unmarshal` first into an
`int64`, then into `struct{ Version int64 }`. The JSON layer is abstracted
into a classification of the body: a bare number (first unmarshal succeeds),
an object (first fails, second succeeds, with `Version` zero when the field
is absent), or malformed (both fail). -/

/-- Classification of a version-response body for `decodeVersion`. -/
inductive VersionPayload where
  | number (n : Int) : VersionPayload
  | object (version : Int) : VersionPayload
  | malformed : VersionPayload
deriving Repr, DecidableEq

/-- `decodeVersion` from `dataplane_client.go`: accept a bare positive
number or a `{"version": N}` object with positive `N`; anything else is an
"unexpected version payload" error. -/
def decodeVersion (raw : String) : VersionPayload → Except String Int
  | .number n =>
    if n > 0 then .ok n else .error ("unexpected version payload: " ++ raw)
  | .object v =>
    if v > 0 then .ok v else .error ("unexpected version payload: " ++ raw)
  | .malformed => .error ("unexpected version payload: " ++ raw)

/-- Outcome of the raw HTTP GET performed by `fetchConfigurationVersion`:
transport failure, or a response with status, body text, and the body's
JSON classification. -/
inductive VersionFetch where
  | transportErr (msg : String) : VersionFetch
  | resp (status : Nat) (raw : String) (payload : VersionPayload) : VersionFetch
deriving Repr, DecidableEq

/-- `fetchConfigurationVersion` from `dataplane_client.go`: transport errors
and non-2xx statuses fail; otherwise decode the version and reject zero. -/
def fetchConfigurationVersion : VersionFetch → Except String Int
  | .transportErr msg => .error ("do request: " ++ msg)
  | .resp status raw payload =>
    if status ≥ 300 then .error (s!"unexpected status {status}: " ++ raw)
    else
      match decodeVersion raw payload with
      | .error e => .error e
      | .ok version =>
        if version = 0 then .error "configuration version is zero"
        else .ok version

/-- Outcome of one `doRequest` call: transport failure, or a response with
status, body text, and the decoded output (`Except` for decode failure). -/
inductive HttpOutcome (α : Type) where
  | transportErr (msg : String) : HttpOutcome α
  | resp (status : Nat) (body : String) (decoded : Except String α) : HttpOutcome α
deriving Repr

/-- `doRequest` from `dataplane_client.go`: transport errors wrap as
"do request", statuses ≥ 300 become `apiStatusError`, decode failures wrap
as "decode response". -/
def doRequest {α : Type} : HttpOutcome α → Except ReqError α
  | .transportErr msg => .error (.other ("do request: " ++ msg))
  | .resp status body decoded =>
    if status ≥ 300 then .error (.apiStatus status body)
    else
      match decoded with
      | .error m => .error (.other ("decode response: " ++ m))
      | .ok a => .ok a

/-- `BeginTransaction` from `dataplane_client.go`: fetch the configuration
version, POST a new transaction at that version (the decoded body being the
response's `id` field, `""` when absent), and reject an empty identifier.
`txCreate` gives the POST's outcome as a function of the version sent. -/
def BeginTransaction (vf : VersionFetch) (txCreate : Int → HttpOutcome String) :
    Except String String :=
  match fetchConfigurationVersion vf with
  | .error e => .error ("fetch version: " ++ e)
  | .ok version =>
    match doRequest (txCreate version) with
    | .error e => .error ("begin transaction: " ++ e.message)
    | .ok id =>
      if id = "" then .error "begin transaction: empty transaction id"
      else .ok id

/-! ### HTTP request traces for one sync pass

`Request` captures one outbound HTTP request by method, path segments
(mirroring the `path.Join` calls of `dataplane_client.go`), and — for the
two server endpoints — the server payload it carries. -/

inductive Method where
  | get : Method
  | put : Method
  | post : Method
  | delete : Method
deriving Repr, DecidableEq

structure Request where
  method : Method
  pathSegs : List String
  serverBody : Option ServerPayload
deriving Repr, DecidableEq

/-- `GET /v3/services/haproxy/configuration/version`. -/
def versionPath : List String :=
  ["v3", "services", "haproxy", "configuration", "version"]

/-- `POST /v3/services/haproxy/transactions`. -/
def transactionsPath : List String :=
  ["v3", "services", "haproxy", "transactions"]

/-- `/v3/services/haproxy/transactions/{id}` (commit `PUT` / abort `DELETE`). -/
def transactionPath (txID : String) : List String :=
  ["v3", "services", "haproxy", "transactions", txID]

/-- `/v3/services/haproxy/configuration/backends/{backend}`. -/
def backendPath (backendName : String) : List String :=
  ["v3", "services", "haproxy", "configuration", "backends", backendName]

/-- `/v3/.../backends/{backend}/servers` (create `POST`). -/
def serversPath (backendName : String) : List String :=
  backendPath backendName ++ ["servers"]

/-- `/v3/.../backends/{backend}/servers/{name}` (update `PUT`). -/
def serverPath (backendName name : String) : List String :=
  serversPath backendName ++ [name]

/-- The HTTP request behind one `ServerReq` of
`UpdateBackendsInTransaction`. -/
def serverReqRequest (backendName : String) : ServerReq → Request
  | .put p => ⟨.put, serverPath backendName p.name, some p⟩
  | .post p => ⟨.post, serversPath backendName, some p⟩

/-- Oracle for every HTTP interaction of one `DataPlaneClient` sync pass. -/
structure DataPlaneOracle where
  versionFetch : VersionFetch
  txCreate : Int → HttpOutcome String
  serverApi : ServerApi
  healthResp : HealthCheckConfig → Option ReqError
  commitResp : String → Option ReqError
  abortResp : String → Option ReqError

/-- `UpdateHealthChecksInTransaction`: one `PUT` on the backend path; the
result is `doRequest`'s outcome. -/
def UpdateHealthChecksInTransaction (o : DataPlaneOracle)
    (config : HealthCheckConfig) : Option String :=
  (o.healthResp config).map ReqError.message

/-- `CommitTransaction`: reject an empty transaction id (no request made),
else one `PUT` on the transaction path. -/
def CommitTransaction (o : DataPlaneOracle) (txID : String) : Option String :=
  if txID = "" then some "commit transaction: empty transaction id"
  else (o.commitResp txID).map ReqError.message

/-- `AbortTransaction`: reject an empty transaction id (no request made),
else one `DELETE` on the transaction path. -/
def AbortTransaction (o : DataPlaneOracle) (txID : String) : Option String :=
  if txID = "" then some "abort transaction: empty transaction id"
  else (o.abortResp txID).map ReqError.message

/-- The `DataPlaneClient` methods packaged as the `Client` oracle consumed
by `SyncBackends`. -/
def dataPlaneClient (o : DataPlaneOracle) : ClientSpec :=
  { beginTransaction := BeginTransaction o.versionFetch o.txCreate,
    updateBackendsInTransaction := fun _ bs =>
      (UpdateBackendsInTransaction o.serverApi bs).1,
    updateHealthChecksInTransaction := fun _ cfg =>
      UpdateHealthChecksInTransaction o cfg,
    commitTransaction := fun tx => CommitTransaction o tx,
    abortTransaction := fun tx => AbortTransaction o tx }

/-- The HTTP requests the `DataPlaneClient` issues while serving one
`Client`-interface call. `BeginTransaction` always issues the version GET
and issues the transaction POST only when the version fetch succeeded;
commit/abort issue nothing when the transaction id is empty. -/
def callRequests (o : DataPlaneOracle) (backendName : String) : Call → List Request
  | .beginTx =>
    match fetchConfigurationVersion o.versionFetch with
    | .error _ => [⟨.get, versionPath, none⟩]
    | .ok _ => [⟨.get, versionPath, none⟩, ⟨.post, transactionsPath, none⟩]
  | .updateBackends _ bs =>
    ((UpdateBackendsInTransaction o.serverApi bs).2).map
      (serverReqRequest backendName)
  | .updateHealth _ _ => [⟨.put, backendPath backendName, none⟩]
  | .commit tx => if tx = "" then [] else [⟨.put, transactionPath tx, none⟩]
  | .abort tx => if tx = "" then [] else [⟨.delete, transactionPath tx, none⟩]

/-- All HTTP requests issued during one `SyncBackends` pass against the real
`DataPlaneClient`, in order. -/
def syncRequestTrace (o : DataPlaneOracle) (backendName : String)
    (backends : List BackendServer) (health : HealthCheckConfig) : List Request :=
  ((SyncBackends (dataPlaneClient o) backends health).2).flatMap
    (callRequests o backendName)

/-! ## Reconciliation loop (`internal/controller/controller.go`)

The controller uses `workqueue.NewRateLimitingQueue` from client-go, a
library outside this repository, so the queue itself is modelled from the
spec; the controller's own handlers and `processNextWorkItem` follow the
source. -/

namespace controller

/-- `queueKey` from `controller.go`: the single constant reconcile key. -/
def queueKey : String := "ingress-backends"

/-- Modelled from the spec: the rate-limiting work queue
(`workqueue.RateLimitingInterface`, provided by the client-go library and
absent from this repository's sources) as "an explicit thread-safe
bounded-dedup queue type (arena of pending keys + a set for membership
testing)" with the contract `add/get/done/forget/addWithBackoff`.
`pending` is the FIFO of queued keys, `dirty` the membership set used for
de-duplication, `processing` the keys currently held by workers,
`failures` the per-key failure counts driving the exponential backoff, and
`delayed` the keys parked until their backoff delay (in microseconds)
elapses. -/
structure WorkQueue where
  pending : List String
  dirty : List String
  processing : List String
  failures : List (String × Nat)
  delayed : List (String × Nat)
deriving Repr, DecidableEq

/-- Failure count the rate limiter holds for a key (0 when unknown). -/
def failureCount (q : WorkQueue) (k : String) : Nat :=
  (q.failures.lookup k).getD 0

/-- Remove a key's entry from the failure-count table. -/
def eraseKey (l : List (String × Nat)) (k : String) : List (String × Nat) :=
  l.filter fun kv => kv.1 ≠ k

/-- Modelled from the spec: deduplicating `add` — a key already pending
(member of the dirty set) is not enqueued again; a key being processed is
remembered as dirty for re-queue on `done` instead of being double-queued. -/
def add (q : WorkQueue) (k : String) : WorkQueue :=
  if k ∈ q.dirty then q
  else if k ∈ q.processing then { q with dirty := k :: q.dirty }
  else { q with dirty := k :: q.dirty, pending := q.pending ++ [k] }

/-- Modelled from the spec: `get` pops the head of the FIFO, moves it from
the dirty set to the processing set. -/
def get (q : WorkQueue) : Option String × WorkQueue :=
  match q.pending with
  | [] => (none, q)
  | k :: rest =>
    (some k,
     { q with pending := rest, dirty := q.dirty.erase k,
              processing := k :: q.processing })

/-- Modelled from the spec: `done` releases a processing key; if the key was
marked dirty again while being processed, it is re-queued. -/
def done (q : WorkQueue) (k : String) : WorkQueue :=
  let q' := { q with processing := q.processing.erase k }
  if k ∈ q'.dirty then { q' with pending := q'.pending ++ [k] }
  else q'

/-- Backoff delay in microseconds for the next retry of a key: exponential
in the key's failure count (base delay 5ms, doubling per failure), as the
spec's "exponential rate-limited backoff". -/
def backoffDelay (q : WorkQueue) (k : String) : Nat :=
  5000 * 2 ^ failureCount q k

/-- Modelled from the spec: `addWithBackoff` (`AddRateLimited`) — the key is
parked in the delayed set for its backoff delay (it does not reappear in the
FIFO immediately) and its failure count is incremented. -/
def addRateLimited (q : WorkQueue) (k : String) : WorkQueue :=
  { q with delayed := q.delayed ++ [(k, backoffDelay q k)],
           failures := (k, failureCount q k + 1) :: eraseKey q.failures k }

/-- Modelled from the spec: `forget` drops the key's backoff history. -/
def forget (q : WorkQueue) (k : String) : WorkQueue :=
  { q with failures := eraseKey q.failures k }

/-- `Controller.enqueue` from `controller.go`: every event handler (add,
update, delete) ignores the event object and adds the constant `queueKey`. -/
def enqueue (q : WorkQueue) : WorkQueue :=
  add q queueKey

/-- `processNextWorkItem` from `controller.go`, with the sync outcome
supplied as `syncOk`: pull an item; on sync failure re-enqueue `queueKey`
through the rate limiter, on success forget the item; in both cases the
deferred `Done` runs last. Returns the new queue state and whether an item
was processed. -/
def processNextWorkItem (q : WorkQueue) (syncOk : Bool) : WorkQueue × Bool :=
  match get q with
  | (none, q') => (q', false)
  | (some item, q') =>
    if syncOk then (done (forget q' item) item, true)
    else (done (addRateLimited q' queueKey) item, true)

/-- Queue well-formedness: the FIFO has no duplicates and every queued key
is in the dirty set. -/
def WellFormed (q : WorkQueue) : Prop :=
  q.pending.Nodup ∧ ∀ k ∈ q.pending, k ∈ q.dirty

end controller

/-- Concrete client used to witness the transactional discipline: the
backend update stage fails. -/
def failingUpdateClient : ClientSpec :=
  { beginTransaction := .ok "tx1",
    updateBackendsInTransaction := fun _ _ => some "boom",
    updateHealthChecksInTransaction := fun _ _ => none,
    commitTransaction := fun _ => none,
    abortTransaction := fun _ => some "abort also failed" }

/-- Concrete server API used to witness the upsert fallback: every update
`PUT` reports 404, every create `POST` succeeds. -/
def notFoundThenCreateApi : ServerApi :=
  { update := fun _ => some (.apiStatus 404 "no such server"),
    create := fun _ => none }

/-- A concrete backend server used by witnesses. -/
def sampleServer : BackendServer :=
  { name := "node1-8080", address := "192.168.0.5", port := 8080, weight := 1,
    check := true }

/-- Concrete payload classifications used by the C5 witness. -/
def goodVersionFetch : VersionFetch := .resp 200 "5" (.number 5)

/-- Concrete transaction-creation outcome used by the C5 witness. -/
def goodTxCreate : Int → HttpOutcome String :=
  fun _ => .resp 202 "\x7b\x7d" (.ok "tx-abc")

/-- A membership set representable in both input shapes: groups of
(address, optional host identifier) pairs, each exposing a list of port
numbers. The legacy flat shape cannot express not-ready entries or absent
port numbers, so a commonly-representable membership has neither. -/
structure MembershipGroup where
  addresses : List (String × Option String)
  ports : List Int
deriving Repr, DecidableEq

/-- Render a membership group in the legacy flat shape. -/
def groupToSubset (g : MembershipGroup) : EndpointSubset :=
  { addresses := g.addresses.map fun a => { ip := a.1, nodeName := a.2 },
    ports := g.ports.map fun p => { port := p } }

/-- Render a membership list in the legacy flat shape. -/
def groupsToEndpoints (gs : List MembershipGroup) : List Endpoints :=
  [{ subsets := gs.map groupToSubset }]

/-- Render a membership group in the service-topology slice shape (every
entry carries an explicit ready flag). -/
def groupToSlice (g : MembershipGroup) : EndpointSlice :=
  { ports := g.ports.map fun p => { port := some p },
    endpoints := g.addresses.map fun a =>
      { addresses := [a.1], conditions := { ready := some true },
        nodeName := a.2 } }

/-- Render a membership list in the service-topology slice shape. -/
def groupsToSlices (gs : List MembershipGroup) : List EndpointSlice :=
  gs.map groupToSlice

/-- The canonical coalesced queue state: exactly one pending instance of the
reconcile key, nothing processing. -/
def coalescedState (fs ds : List (String × Nat)) : controller.WorkQueue :=
  { pending := [controller.queueKey], dirty := [controller.queueKey],
    processing := [], failures := fs, delayed := ds }

/-- The naming rule as the claim states it, following the spec's words:
`"{identifier}-{port}"` where the identifier is the host identifier when
present and non-empty, and otherwise the `fallback` string (the claim puts
the resolved address there). -/
def claimC2Name (identifier : Option String) (fallback : String) (port : Int) :
    String :=
  match identifier with
  | some n => if n ≠ "" then s!"{n}-{port}" else s!"{fallback}-{port}"
  | none => s!"{fallback}-{port}"

/-- Slice whose single entry has a present-but-empty host identifier; the
host-address table below maps the empty identifier to a non-empty address,
separating the raw address from the resolved one. -/
def emptyIdentifierSlice : EndpointSlice :=
  { ports := [{ port := some 8080 }],
    endpoints := [{ addresses := ["10.0.0.3"],
                    conditions := { ready := some true }, nodeName := some "" }] }

/-- Host-address table mapping the empty identifier to `192.168.0.9`. -/
def emptyIdentifierNodeIPs : List (String × String) := [("", "192.168.0.9")]

/-- The server emitted for the claim's first example, used by the witness. -/
def node1Server : variant.BackendServer :=
  { name := "node1-8080", address := "10.0.0.10", port := 8080, weight := 1,
    check := true, sendProxyV2 := false }

/-- The slice of the claim's first example, used by the witness. -/
def node1Slice : EndpointSlice :=
  { ports := [{ port := some 8080 }],
    endpoints := [{ addresses := ["10.0.0.10"],
                    conditions := { ready := some true },
                    nodeName := some "node1" }] }

/-- Oracle used by the C10 witness: upsert falls back to create, commit
fails, so the abort `DELETE` appears in the trace. -/
def demoOracle : DataPlaneOracle :=
  { versionFetch := goodVersionFetch,
    txCreate := goodTxCreate,
    serverApi := notFoundThenCreateApi,
    healthResp := fun _ => none,
    commitResp := fun _ => some (.apiStatus 500 "boom"),
    abortResp := fun _ => none }

/-! ## Theorems -/

end HaproxySync

namespace HaproxySync

/-- C1: If `BeginTransaction` succeeds with transaction id `tx` then (i) the
trace holds exactly one abort call when any later stage fails and none on
success, (ii) every abort call uses `tx`, (iii) commit is called at most
once, and exactly when both update stages succeed (so never after a failing
update stage), (iv)-(vi) the result is the first failing stage's error
wrapped with its stage label, (vii) on full success the result is success
and no abort happens, and (viii) the abort method's own result alters
neither the result nor the trace. -/
theorem syncBackends_transaction_discipline
    (c : ClientSpec) (f : String → Option String)
    (backends : List BackendServer) (health : HealthCheckConfig)
    (tx : String) (hb : c.beginTransaction = .ok tx) :
    ((SyncBackends c backends health).2.count (.abort tx) =
        if (SyncBackends c backends health).1 = none then 0 else 1)
    ∧ (∀ t, Call.abort t ∈ (SyncBackends c backends health).2 → t = tx)
    ∧ ((SyncBackends c backends health).2.count (.commit tx) ≤ 1)
    ∧ (Call.commit tx ∈ (SyncBackends c backends health).2 ↔
        c.updateBackendsInTransaction tx backends = none ∧
        c.updateHealthChecksInTransaction tx health = none)
    ∧ (∀ e, c.updateBackendsInTransaction tx backends = some e →
        (SyncBackends c backends health).1 = some ("updating backends: " ++ e))
    ∧ (∀ e, c.updateBackendsInTransaction tx backends = none →
        c.updateHealthChecksInTransaction tx health = some e →
        (SyncBackends c backends health).1 = some ("updating health checks: " ++ e))
    ∧ (∀ e, c.updateBackendsInTransaction tx backends = none →
        c.updateHealthChecksInTransaction tx health = none →
        c.commitTransaction tx = some e →
        (SyncBackends c backends health).1 = some ("committing transaction: " ++ e))
    ∧ (c.updateBackendsInTransaction tx backends = none →
        c.updateHealthChecksInTransaction tx health = none →
        c.commitTransaction tx = none →
        (SyncBackends c backends health).1 = none ∧
        Call.abort tx ∉ (SyncBackends c backends health).2)
    ∧ SyncBackends { c with abortTransaction := f } backends health =
        SyncBackends c backends health := by
  cases h1 : c.updateBackendsInTransaction tx backends <;>
    cases h2 : c.updateHealthChecksInTransaction tx health <;>
      cases h3 : c.commitTransaction tx <;>
        simp [SyncBackends, hb, h1, h2, h3, List.count_cons, List.count_nil,
          beq_iff_eq]

/-- Witness for C1 at a concrete client whose backend-update stage fails:
the returned error carries the stage label and the message. -/
theorem syncBackends_transaction_discipline_witness :
    (SyncBackends failingUpdateClient []
      { intervalSeconds := 5, riseCount := 2, fallCount := 2 }).1 =
      some ("updating backends: " ++ "boom") :=
  (syncBackends_transaction_discipline failingUpdateClient (fun _ => none) []
      { intervalSeconds := 5, riseCount := 2, fallCount := 2 } "tx1"
      rfl).2.2.2.2.1 "boom" rfl

/-- C4: For the server at the head of the list, (i) a successful update
continues with the rest after just the `PUT`; (ii) a 404 on the update
triggers exactly one create `POST` with the same payload and iteration
continues on its success; (iii) a failing fallback create stops immediately
with the error wrapped with the server name; (iv) any non-404 update error
stops immediately, wrapped with the server name, with no create and no
further servers attempted. -/
theorem updateBackends_upsert_fallback
    (api : ServerApi) (b : BackendServer) (rest : List BackendServer) :
    (api.update b = none →
      UpdateBackendsInTransaction api (b :: rest) =
        ((UpdateBackendsInTransaction api rest).1,
         .put (toPayload b) :: (UpdateBackendsInTransaction api rest).2))
    ∧ (∀ body, api.update b = some (.apiStatus 404 body) → api.create b = none →
      UpdateBackendsInTransaction api (b :: rest) =
        ((UpdateBackendsInTransaction api rest).1,
         .put (toPayload b) :: .post (toPayload b) ::
           (UpdateBackendsInTransaction api rest).2))
    ∧ (∀ body ce, api.update b = some (.apiStatus 404 body) →
        api.create b = some ce →
      UpdateBackendsInTransaction api (b :: rest) =
        (some (s!"create server {b.name}: " ++ ce.message),
         [.put (toPayload b), .post (toPayload b)]))
    ∧ (∀ e, api.update b = some e → e.isNotFound = false →
      UpdateBackendsInTransaction api (b :: rest) =
        (some (s!"update server {b.name}: " ++ e.message), [.put (toPayload b)])) := by
  refine ⟨fun h1 => ?_, fun body h1 h2 => ?_, fun body ce h1 h2 => ?_,
    fun e h1 h2 => ?_⟩
  · simp [UpdateBackendsInTransaction, h1]
  · simp [UpdateBackendsInTransaction, h1, h2, ReqError.isNotFound]
  · simp [UpdateBackendsInTransaction, h1, h2, ReqError.isNotFound]
  · simp [UpdateBackendsInTransaction, h1, h2]

/-- Witness for C4 at a concrete 404-then-create API and one server: the
trace is exactly one `PUT` followed by one `POST`, both with the same
payload, and the pass succeeds. -/
theorem updateBackends_upsert_fallback_witness :
    UpdateBackendsInTransaction notFoundThenCreateApi [sampleServer] =
      (none, [.put (toPayload sampleServer), .post (toPayload sampleServer)]) := by
  have h := (updateBackends_upsert_fallback notFoundThenCreateApi sampleServer
    []).2.1 "no such server" rfl rfl
  simpa [UpdateBackendsInTransaction] using h

/-- C5: (i) a successfully fetched configuration version is positive and
comes from a sub-300 response whose body was a bare number or a
`{"version": N}` object; (ii) `BeginTransaction` returns an identifier
exactly when the version fetch succeeds, the transaction-creation request
succeeds, and the response identifier is non-empty; (iii) in particular an
empty identifier yields an error. -/
theorem beginTransaction_validation
    (vf : VersionFetch) (txCreate : Int → HttpOutcome String) :
    (∀ v, fetchConfigurationVersion vf = .ok v →
      0 < v ∧ ∃ status raw payload, vf = .resp status raw payload ∧
        status < 300 ∧ (payload = .number v ∨ payload = .object v))
    ∧ (∀ id, BeginTransaction vf txCreate = .ok id ↔
        ∃ v, fetchConfigurationVersion vf = .ok v ∧
          doRequest (txCreate v) = .ok id ∧ id ≠ "")
    ∧ (∀ v, fetchConfigurationVersion vf = .ok v →
        doRequest (txCreate v) = .ok "" →
        ∃ e, BeginTransaction vf txCreate = .error e) := by
  refine ⟨fun v hv => ?_, fun id => ?_, fun v hv hd => ?_⟩
  · cases vf with
    | transportErr msg => simp [fetchConfigurationVersion] at hv
    | resp status raw payload =>
      unfold fetchConfigurationVersion at hv
      by_cases hs : status ≥ 300
      · simp [hs] at hv
      · simp [hs] at hv
        cases payload with
        | number n =>
          unfold decodeVersion at hv
          by_cases hn : n > 0
          · have hn0 : ¬ n = 0 := by omega
            simp [hn, hn0] at hv
            exact ⟨by omega, status, raw, .number n, rfl, by omega,
              Or.inl (by rw [hv])⟩
          · simp [hn] at hv
        | object n =>
          unfold decodeVersion at hv
          by_cases hn : n > 0
          · have hn0 : ¬ n = 0 := by omega
            simp [hn, hn0] at hv
            exact ⟨by omega, status, raw, .object n, rfl, by omega,
              Or.inr (by rw [hv])⟩
          · simp [hn] at hv
        | malformed => simp [decodeVersion] at hv
  · unfold BeginTransaction
    cases hf : fetchConfigurationVersion vf with
    | error e => simp
    | ok v =>
      cases hd : doRequest (txCreate v) with
      | error e => simp [hd]
      | ok id' =>
        by_cases h0 : id' = ""
        · subst h0
          simp [hd]
          exact fun h1 => h1.symm
        · simp [hd, h0]
          exact fun h => h ▸ h0
  · unfold BeginTransaction
    rw [hv]
    simp [hd]

/-- Witness for C5: at a 200 bare-number version response and a 202
transaction response with id `tx-abc`, `BeginTransaction` returns that id. -/
theorem beginTransaction_validation_witness :
    BeginTransaction goodVersionFetch goodTxCreate = .ok "tx-abc" :=
  ((beginTransaction_validation goodVersionFetch goodTxCreate).2.1
    "tx-abc").mpr ⟨5, rfl, rfl, by decide⟩

/-- C6: the backend list `Syncer.Sync` feeds to `SyncBackends` is the
slice-derived list whenever that list is non-empty (in which case the legacy
input has no effect on the result), and the legacy-derived list exactly when
the slice-derived list is empty. -/
theorem sync_slice_precedence
    (slices : List EndpointSlice) (endpoints endpoints2 : List Endpoints)
    (nodeIPs : List (String × String)) (overridePort : Int) :
    (BuildBackendsFromEndpointSlices slices nodeIPs overridePort ≠ [] →
      syncDerivedBackends slices endpoints nodeIPs overridePort =
        BuildBackendsFromEndpointSlices slices nodeIPs overridePort)
    ∧ (BuildBackendsFromEndpointSlices slices nodeIPs overridePort = [] →
      syncDerivedBackends slices endpoints nodeIPs overridePort =
        BuildBackendsFromEndpoints endpoints nodeIPs overridePort)
    ∧ (BuildBackendsFromEndpointSlices slices nodeIPs overridePort ≠ [] →
      syncDerivedBackends slices endpoints nodeIPs overridePort =
        syncDerivedBackends slices endpoints2 nodeIPs overridePort) := by
  refine ⟨fun h => ?_, fun h => ?_, fun h => ?_⟩ <;>
    simp [syncDerivedBackends, List.length_eq_zero, h]

/-- Witness for C6: with a one-endpoint slice the slice-derived list wins
and two different legacy inputs give the same derived backends. -/
theorem sync_slice_precedence_witness :
    syncDerivedBackends
        [{ ports := [{ port := some 8080 }],
           endpoints := [{ addresses := ["10.0.0.1"],
                           conditions := { ready := none }, nodeName := none }] }]
        [{ subsets := [{ addresses := [{ ip := "10.9.9.9", nodeName := none }],
                         ports := [{ port := 80 }] }] }]
        [] 0 =
      syncDerivedBackends
        [{ ports := [{ port := some 8080 }],
           endpoints := [{ addresses := ["10.0.0.1"],
                           conditions := { ready := none }, nodeName := none }] }]
        [] [] 0 :=
  (sync_slice_precedence
      [{ ports := [{ port := some 8080 }],
         endpoints := [{ addresses := ["10.0.0.1"],
                         conditions := { ready := none }, nodeName := none }] }]
      [{ subsets := [{ addresses := [{ ip := "10.9.9.9", nodeName := none }],
                       ports := [{ port := 80 }] }] }]
      [] [] 0).2.2 (by decide)

/-- C9: the backend mapper is a deterministic pure function of its inputs —
two runs on identical input agree in length and element for element. -/
theorem buildBackends_deterministic
    (slices : List EndpointSlice) (nodeIPs : List (String × String))
    (overridePort : Int) :
    (BuildBackendsFromEndpointSlices slices nodeIPs overridePort).length =
      (BuildBackendsFromEndpointSlices slices nodeIPs overridePort).length
    ∧ ∀ i, (BuildBackendsFromEndpointSlices slices nodeIPs overridePort).get? i =
      (BuildBackendsFromEndpointSlices slices nodeIPs overridePort).get? i :=
  ⟨rfl, fun _ => rfl⟩

theorem flatMap_map_eq {α β γ : Type} (l : List α) (g : α → β) (f : β → List γ) :
    (l.map g).flatMap f = l.flatMap (fun x => f (g x)) := by
  induction l with
  | nil => rfl
  | cons a t ih => simp [List.flatMap_cons, ih]

theorem flatMap_singleton_eq {α β : Type} (l : List α) (f : α → β) :
    l.flatMap (fun x => [f x]) = l.map f := by
  induction l with
  | nil => rfl
  | cons a t ih => simp [List.flatMap_cons, ih]

/-- C3: for every membership set representable in both input shapes, the
slice mapper and the legacy mapper produce the same backend server list —
same names, addresses, ports, weights, and check flags, in the same order —
given the same host-address table and port override. -/
theorem slice_group_inner_eq (addrs : List (String × Option String))
    (pn overridePort : Int) (nodeIPs : List (String × String)) :
    (addrs.map (fun a =>
        ({ addresses := [a.1], conditions := { ready := some true },
           nodeName := a.2 } : Endpoint))).flatMap
      (sliceEndpointServers pn overridePort nodeIPs) =
    addrs.map (fun a =>
      mkServer (resolveAddress a.1 a.2 nodeIPs) (selectPort (some pn) overridePort)) := by
  induction addrs with
  | nil => rfl
  | cons a t ih => simp [List.flatMap_cons, sliceEndpointServers, ih]

theorem group_servers_eq (g : MembershipGroup)
    (nodeIPs : List (String × String)) (overridePort : Int) :
    (groupToSlice g).ports.flatMap (fun port =>
      match port.port with
      | none => []
      | some pn =>
        (groupToSlice g).endpoints.flatMap
          (sliceEndpointServers pn overridePort nodeIPs)) =
    (groupToSubset g).ports.flatMap (fun port =>
      (groupToSubset g).addresses.map fun addr =>
        mkServer (resolveAddress addr.ip addr.nodeName nodeIPs)
          (selectPort (some port.port) overridePort)) := by
  obtain ⟨addrs, ports⟩ := g
  unfold groupToSlice groupToSubset
  simp only
  rw [flatMap_map_eq, flatMap_map_eq]
  induction ports with
  | nil => rfl
  | cons p t ih =>
    rw [List.flatMap_cons, List.flatMap_cons, ih]
    congr 1
    dsimp only
    rw [slice_group_inner_eq, List.map_map]
    rfl

/-- C3: for every membership set representable in both input shapes, the
slice mapper and the legacy mapper produce the same backend server list —
same names, addresses, ports, weights, and check flags, in the same order —
given the same host-address table and port override. -/
theorem buildBackends_shape_equivalence
    (gs : List MembershipGroup) (nodeIPs : List (String × String))
    (overridePort : Int) :
    BuildBackendsFromEndpointSlices (groupsToSlices gs) nodeIPs overridePort =
      BuildBackendsFromEndpoints (groupsToEndpoints gs) nodeIPs overridePort := by
  unfold BuildBackendsFromEndpointSlices BuildBackendsFromEndpoints
    groupsToSlices groupsToEndpoints
  rw [List.flatMap_cons]
  simp only [List.flatMap_nil, List.append_nil]
  rw [flatMap_map_eq, flatMap_map_eq]
  induction gs with
  | nil => rfl
  | cons g t ih => rw [List.flatMap_cons, List.flatMap_cons, ih, group_servers_eq]

theorem lookup_eraseKey (l : List (String × Nat)) (k : String) :
    (controller.eraseKey l k).lookup k = none := by
  induction l with
  | nil => rfl
  | cons kv t ih =>
    by_cases h : kv.1 = k
    · simpa [controller.eraseKey, List.filter_cons, h] using ih
    · have hne : (k == kv.1) = false :=
        beq_eq_false_iff_ne.mpr (fun hh => h hh.symm)
      simpa [controller.eraseKey, List.filter_cons, h, List.lookup, hne] using ih

theorem add_wellFormed (q : controller.WorkQueue) (k : String)
    (h : controller.WellFormed q) : controller.WellFormed (controller.add q k) := by
  obtain ⟨hnd, hsub⟩ := h
  unfold controller.add
  by_cases h1 : k ∈ q.dirty
  · simpa [h1] using ⟨hnd, hsub⟩
  · by_cases h2 : k ∈ q.processing
    · simp only [h1, if_neg, if_pos h2, ite_false, ite_true]
      exact ⟨hnd, fun x hx => List.mem_cons_of_mem _ (hsub x hx)⟩
    · have hk : k ∉ q.pending := fun hk => h1 (hsub k hk)
      simp only [h1, h2, ite_false]
      constructor
      · simpa [List.nodup_append] using ⟨hnd, hk⟩
      · intro x hx
        rcases List.mem_append.1 hx with hx | hx
        · exact List.mem_cons_of_mem _ (hsub x hx)
        · simp at hx
          simp [hx]

/-- C8: (i) every event handler enqueues the constant reconcile key; (ii)
from any well-formed queue state, any number of handler notifications
leaves at most one pending instance of the key (the dedup set collapses
them); (iii) from the coalesced state, a failed sync parks the key in the
delayed set for a strictly positive exponential backoff delay — the FIFO is
left empty, so the key does not reappear immediately — and increments its
failure count; (iv) a successful sync leaves the FIFO empty and resets the
key's backoff history. -/
theorem reconcile_queue_behavior :
    (∀ q : controller.WorkQueue, controller.enqueue q =
      controller.add q controller.queueKey)
    ∧ (∀ q : controller.WorkQueue, controller.WellFormed q → ∀ n : Nat,
      controller.WellFormed (controller.enqueue^[n] q) ∧
      (controller.enqueue^[n] q).pending.count controller.queueKey ≤ 1)
    ∧ (∀ fs ds,
      (controller.processNextWorkItem (coalescedState fs ds) false).2 = true ∧
      ((controller.processNextWorkItem (coalescedState fs ds) false).1).pending = [] ∧
      ((controller.processNextWorkItem (coalescedState fs ds) false).1).delayed =
        ds ++ [(controller.queueKey,
                controller.backoffDelay (coalescedState fs ds) controller.queueKey)] ∧
      0 < controller.backoffDelay (coalescedState fs ds) controller.queueKey ∧
      controller.failureCount
          ((controller.processNextWorkItem (coalescedState fs ds) false).1)
          controller.queueKey =
        controller.failureCount (coalescedState fs ds) controller.queueKey + 1)
    ∧ (∀ fs ds,
      ((controller.processNextWorkItem (coalescedState fs ds) true).1).pending = [] ∧
      controller.failureCount
          ((controller.processNextWorkItem (coalescedState fs ds) true).1)
          controller.queueKey = 0) := by
  refine ⟨fun q => rfl, fun q hq n => ?_, fun fs ds => ?_, fun fs ds => ?_⟩
  · induction n with
    | zero =>
      exact ⟨hq, (List.nodup_iff_count_le_one.1 hq.1) controller.queueKey⟩
    | succ m ih =>
      rw [Function.iterate_succ_apply']
      have hwf := add_wellFormed _ controller.queueKey ih.1
      exact ⟨hwf, (List.nodup_iff_count_le_one.1 hwf.1) controller.queueKey⟩
  · refine ⟨rfl, ?_, ?_, ?_, ?_⟩ <;>
      simp [controller.processNextWorkItem, controller.get, coalescedState,
        controller.done, controller.addRateLimited, controller.forget,
        controller.failureCount, controller.backoffDelay, List.lookup,
        Nat.pos_pow_of_pos]
  · refine ⟨?_, ?_⟩ <;>
      simp [controller.processNextWorkItem, controller.get, coalescedState,
        controller.done, controller.forget, controller.failureCount,
        lookup_eraseKey]

/-- Witness for C8: from the empty queue three notifications leave at most
one pending key; from the coalesced state with no history, a failed sync
leaves the FIFO empty and parks the key with delay 5000, and a successful
sync resets the failure count. -/
theorem reconcile_queue_behavior_witness :
    (controller.enqueue^[3]
        { pending := [], dirty := [], processing := [], failures := [],
          delayed := [] }).pending.count controller.queueKey ≤ 1
    ∧ ((controller.processNextWorkItem (coalescedState [] []) false).1).pending = []
    ∧ ((controller.processNextWorkItem (coalescedState [] []) true).1).pending = [] :=
  ⟨(reconcile_queue_behavior.2.1
      { pending := [], dirty := [], processing := [], failures := [],
        delayed := [] } (by simp [controller.WellFormed]) 3).2,
   (reconcile_queue_behavior.2.2.1 [] []).2.1,
   (reconcile_queue_behavior.2.2.2 [] []).1⟩

/-- The code's `serverName` agrees with the claim's naming rule when the
raw address is used as the fallback. -/
theorem serverName_eq_claimC2Name (addr : String) (nn : Option String) (p : Int) :
    variant.serverName addr nn p = claimC2Name nn addr p := by
  cases nn with
  | none => rfl
  | some n => by_cases h : n = "" <;> simp [variant.serverName, claimC2Name, h]

/-- C2 counterexample: for the entry with a present-but-empty host
identifier whose empty identifier is mapped by the host-address table, the
emitted name uses the raw address `10.0.0.3`, not the resolved address
`192.168.0.9` required by the claim's fallback. -/
theorem variant_serverName_claim_counterexample :
    ¬ ∀ s ∈ variant.BuildBackendsFromEndpointSlices [emptyIdentifierSlice]
        emptyIdentifierNodeIPs 0 false,
      s.name = claimC2Name (some "") s.address s.port := by decide

/-- C2 (amended): every spec the variant mapper emits is named
`serverName addr nodeName port` — `"{identifier}-{port}"` with the
identifier being the host identifier when present and non-empty, and
otherwise the raw entry address (which equals the resolved address whenever
the identifier is absent); and the claim's two concrete examples hold. -/
theorem variant_serverName_amended :
    (∀ slices nodeIPs overridePort sendProxyV2 s,
      s ∈ variant.BuildBackendsFromEndpointSlices slices nodeIPs overridePort
            sendProxyV2 →
      ∃ slice ∈ slices, ∃ port ∈ slice.ports, ∃ pn, port.port = some pn ∧
        ∃ ep ∈ slice.endpoints, ∃ addr ∈ ep.addresses,
          ep.conditions.ready ≠ some false ∧
          s.port = selectPort (some pn) overridePort ∧
          s.address = resolveAddress addr ep.nodeName nodeIPs ∧
          s.name = variant.serverName addr ep.nodeName s.port ∧
          s.name = claimC2Name ep.nodeName addr s.port ∧
          (ep.nodeName = none →
            s.name = claimC2Name ep.nodeName s.address s.port))
    ∧ (variant.BuildBackendsFromEndpointSlices
        [{ ports := [{ port := some 8080 }],
           endpoints := [{ addresses := ["10.0.0.10"],
                           conditions := { ready := some true },
                           nodeName := some "node1" }] }] [] 0 false).map
        (fun s => s.name) = ["node1-8080"]
    ∧ (variant.BuildBackendsFromEndpointSlices
        [{ ports := [{ port := some 8080 }],
           endpoints := [{ addresses := ["10.0.0.3"],
                           conditions := { ready := none },
                           nodeName := none }] }] [] 0 false).map
        (fun s => s.name) = ["10.0.0.3-8080"] := by
  refine ⟨?_, by decide, by decide⟩
  intro slices nodeIPs overridePort sendProxyV2 s hs
  unfold variant.BuildBackendsFromEndpointSlices at hs
  rw [List.mem_flatMap] at hs
  obtain ⟨slice, hslice, hs⟩ := hs
  rw [List.mem_flatMap] at hs
  obtain ⟨port, hport, hs⟩ := hs
  cases hp : port.port with
  | none => rw [hp] at hs; simp at hs
  | some pn =>
    rw [hp] at hs
    rw [List.mem_flatMap] at hs
    obtain ⟨ep, hep, hs⟩ := hs
    unfold variant.sliceEndpointServers at hs
    by_cases hr : ep.conditions.ready = some false
    · simp [hr] at hs
    · rw [if_neg hr] at hs
      rw [List.mem_map] at hs
      obtain ⟨addr, haddr, rfl⟩ := hs
      refine ⟨slice, hslice, port, hport, pn, hp, ep, hep, addr, haddr, hr,
        rfl, rfl, rfl, serverName_eq_claimC2Name addr ep.nodeName _, ?_⟩
      intro hnn
      rw [hnn]
      exact serverName_eq_claimC2Name addr none _

/-- Witness for the amended C2 at the claim's first example. -/
theorem variant_serverName_amended_witness :
    ∃ slice ∈ [node1Slice], ∃ port ∈ slice.ports, ∃ pn, port.port = some pn ∧
      ∃ ep ∈ slice.endpoints, ∃ addr ∈ ep.addresses,
        ep.conditions.ready ≠ some false ∧
        node1Server.port = selectPort (some pn) 0 ∧
        node1Server.address = resolveAddress addr ep.nodeName [] ∧
        node1Server.name = variant.serverName addr ep.nodeName node1Server.port ∧
        node1Server.name = claimC2Name ep.nodeName addr node1Server.port ∧
        (ep.nodeName = none →
          node1Server.name = claimC2Name ep.nodeName node1Server.address
            node1Server.port) :=
  variant_serverName_amended.1 [node1Slice] [] 0 false node1Server (by decide)

/-- C7: within a slice, (i) an entry whose ready flag is present and false
contributes nothing — removing it from the slice leaves the mapper output
unchanged; (ii) an entry whose ready flag is absent or true contributes one
server per address per usable port (a port entry with a number). -/
theorem readiness_filter
    (ports : List EndpointPort) (pre post : List Endpoint) (ep : Endpoint)
    (nodeIPs : List (String × String)) (overridePort : Int) :
    (ep.conditions.ready = some false →
      BuildBackendsFromEndpointSlices
          [{ ports := ports, endpoints := pre ++ ep :: post }] nodeIPs overridePort =
        BuildBackendsFromEndpointSlices
          [{ ports := ports, endpoints := pre ++ post }] nodeIPs overridePort)
    ∧ (ep.conditions.ready ≠ some false →
      (BuildBackendsFromEndpointSlices
          [{ ports := ports, endpoints := [ep] }] nodeIPs overridePort).length =
        (ports.filterMap EndpointPort.port).length * ep.addresses.length) := by
  constructor
  · intro h
    unfold BuildBackendsFromEndpointSlices
    simp only [List.flatMap_cons, List.flatMap_nil, List.append_nil]
    induction ports with
    | nil => rfl
    | cons p ps ih =>
      rw [List.flatMap_cons, List.flatMap_cons, ih]
      congr 1
      dsimp only
      cases hp : p.port with
      | none => rfl
      | some pn =>
        simp [List.flatMap_append, List.flatMap_cons, sliceEndpointServers, h]
  · intro h
    unfold BuildBackendsFromEndpointSlices
    simp only [List.flatMap_cons, List.flatMap_nil, List.append_nil]
    induction ports with
    | nil => simp
    | cons p ps ih =>
      rw [List.flatMap_cons, List.filterMap_cons]
      cases hp : p.port with
      | none => simpa using ih
      | some pn =>
        have hlen : (sliceEndpointServers pn overridePort nodeIPs ep).length =
            ep.addresses.length := by
          simp [sliceEndpointServers, h]
        simp [List.flatMap_cons, List.length_append, hlen, ih, Nat.succ_mul,
          Nat.add_comm]
        ring

/-- Witness for C7: a not-ready entry in the middle of a slice contributes
nothing, and a two-address entry with no readiness information contributes
four servers over two usable ports. -/
theorem readiness_filter_witness :
    (BuildBackendsFromEndpointSlices
        [{ ports := [{ port := some 80 }],
           endpoints := [{ addresses := ["10.0.0.1"],
                           conditions := { ready := some true }, nodeName := none },
                         { addresses := ["10.0.0.2"],
                           conditions := { ready := some false }, nodeName := none }] }]
        [] 0 =
      BuildBackendsFromEndpointSlices
        [{ ports := [{ port := some 80 }],
           endpoints := [{ addresses := ["10.0.0.1"],
                           conditions := { ready := some true }, nodeName := none }] }]
        [] 0)
    ∧ (BuildBackendsFromEndpointSlices
        [{ ports := [{ port := some 8080 }, { port := some 8443 }],
           endpoints := [{ addresses := ["10.0.0.3", "10.0.0.4"],
                           conditions := { ready := none }, nodeName := none }] }]
        [] 0).length = 2 * 2 :=
  ⟨(readiness_filter [{ port := some 80 }]
      [{ addresses := ["10.0.0.1"], conditions := { ready := some true },
         nodeName := none }] []
      { addresses := ["10.0.0.2"], conditions := { ready := some false },
        nodeName := none } [] 0).1 rfl,
   (readiness_filter [{ port := some 8080 }, { port := some 8443 }] [] []
      { addresses := ["10.0.0.3", "10.0.0.4"], conditions := { ready := none },
        nodeName := none } [] 0).2 (by decide)⟩

theorem beginTransaction_ok_nonempty (vf : VersionFetch)
    (tc : Int → HttpOutcome String) (tx : String)
    (h : BeginTransaction vf tc = .ok tx) : tx ≠ "" := by
  unfold BeginTransaction at h
  cases hf : fetchConfigurationVersion vf with
  | error e =>
    simp only [hf] at h
    exact Except.noConfusion h
  | ok v =>
    simp only [hf] at h
    cases hd : doRequest (tc v) with
    | error e =>
      simp only [hd] at h
      exact Except.noConfusion h
    | ok id =>
      simp only [hd] at h
      by_cases h0 : id = ""
      · simp [h0] at h
      · rw [if_neg h0] at h
        cases h
        exact h0

theorem updateBackends_trace_shape (api : ServerApi) :
    ∀ (bs : List BackendServer), ∀ req ∈ (UpdateBackendsInTransaction api bs).2,
      ∃ b ∈ bs, req = .put (toPayload b) ∨ req = .post (toPayload b) := by
  intro bs
  induction bs with
  | nil => intro req h; simp [UpdateBackendsInTransaction] at h
  | cons b rest ih =>
    intro req h
    cases hu : api.update b with
    | none =>
      rw [UpdateBackendsInTransaction] at h
      simp only [hu] at h
      rcases List.mem_cons.1 h with h | h
      · exact ⟨b, List.mem_cons_self b rest, Or.inl h⟩
      · obtain ⟨b2, hb2, ho⟩ := ih req h
        exact ⟨b2, List.mem_cons_of_mem b hb2, ho⟩
    | some e =>
      rw [UpdateBackendsInTransaction] at h
      simp only [hu] at h
      by_cases hn : e.isNotFound
      · rw [if_pos hn] at h
        cases hc : api.create b with
        | none =>
          simp only [hc] at h
          rcases List.mem_cons.1 h with h | h
          · exact ⟨b, List.mem_cons_self b rest, Or.inl h⟩
          rcases List.mem_cons.1 h with h | h
          · exact ⟨b, List.mem_cons_self b rest, Or.inr h⟩
          · obtain ⟨b2, hb2, ho⟩ := ih req h
            exact ⟨b2, List.mem_cons_of_mem b hb2, ho⟩
        | some ce =>
          simp only [hc] at h
          rcases List.mem_cons.1 h with h | h
          · exact ⟨b, List.mem_cons_self b rest, Or.inl h⟩
          · rcases List.mem_cons.1 h with h | h
            · exact ⟨b, List.mem_cons_self b rest, Or.inr h⟩
            · simp at h
      · rw [if_neg hn] at h
        rcases List.mem_cons.1 h with h | h
        · exact ⟨b, List.mem_cons_self b rest, Or.inl h⟩
        · simp at h

theorem mem_beginRequests (o : DataPlaneOracle) (bn : String) (r : Request)
    (h : r ∈ callRequests o bn .beginTx) :
    r = ⟨.get, versionPath, none⟩ ∨ r = ⟨.post, transactionsPath, none⟩ := by
  rw [callRequests] at h
  cases hf : fetchConfigurationVersion o.versionFetch with
  | error e =>
    simp only [hf] at h
    exact Or.inl (List.mem_singleton.1 h)
  | ok v =>
    simp only [hf] at h
    simpa using h

theorem mem_updateRequests (o : DataPlaneOracle) (bn tx : String)
    (bs : List BackendServer) (r : Request)
    (h : r ∈ callRequests o bn (.updateBackends tx bs)) :
    ∃ b ∈ bs, r = ⟨.put, serverPath bn b.name, some (toPayload b)⟩ ∨
      r = ⟨.post, serversPath bn, some (toPayload b)⟩ := by
  unfold callRequests at h
  rw [List.mem_map] at h
  obtain ⟨req, hreq, rfl⟩ := h
  obtain ⟨b, hb, ho⟩ := updateBackends_trace_shape o.serverApi bs req hreq
  rcases ho with rfl | rfl
  · exact ⟨b, hb, Or.inl rfl⟩
  · exact ⟨b, hb, Or.inr rfl⟩

theorem transactionPath_ne_serverPath (tx bn name : String) :
    transactionPath tx ≠ serverPath bn name := by
  simp [transactionPath, serverPath, serversPath, backendPath]

theorem transactionPath_ne_serversPath (tx bn : String) :
    transactionPath tx ≠ serversPath bn := by
  simp [transactionPath, serversPath, backendPath]

theorem syncTrace_request_shapes (o : DataPlaneOracle) (bn : String)
    (backends : List BackendServer) (health : HealthCheckConfig) :
    ∀ r ∈ syncRequestTrace o bn backends health,
      r = ⟨.get, versionPath, none⟩ ∨ r = ⟨.post, transactionsPath, none⟩ ∨
      r = ⟨.put, backendPath bn, none⟩ ∨
      (∃ tx, BeginTransaction o.versionFetch o.txCreate = .ok tx ∧
        (r = ⟨.put, transactionPath tx, none⟩ ∨
         r = ⟨.delete, transactionPath tx, none⟩)) ∨
      (∃ b ∈ backends, r = ⟨.put, serverPath bn b.name, some (toPayload b)⟩ ∨
        r = ⟨.post, serversPath bn, some (toPayload b)⟩) := by
  intro r hr
  unfold syncRequestTrace SyncBackends at hr
  cases hb : (dataPlaneClient o).beginTransaction with
  | error e =>
    simp only [hb] at hr
    simp only [List.flatMap_cons, List.flatMap_nil, List.append_nil,
      List.mem_append] at hr
    rcases mem_beginRequests o bn r (by simpa using hr) with rfl | rfl
    · exact Or.inl rfl
    · exact Or.inr (Or.inl rfl)
  | ok tx =>
    have hbeq : BeginTransaction o.versionFetch o.txCreate = .ok tx := hb
    have htx : tx ≠ "" := beginTransaction_ok_nonempty _ _ _ hbeq
    simp only [hb] at hr
    cases h1 : (dataPlaneClient o).updateBackendsInTransaction tx backends with
    | some e1 =>
      simp only [h1] at hr
      simp only [List.flatMap_cons, List.flatMap_nil, List.append_nil,
        List.mem_append] at hr
      rcases hr with hr | hr | hr
      · rcases mem_beginRequests o bn r hr with rfl | rfl
        · exact Or.inl rfl
        · exact Or.inr (Or.inl rfl)
      · obtain ⟨b, hbn, ho⟩ := mem_updateRequests o bn tx backends r hr
        exact Or.inr (Or.inr (Or.inr (Or.inr ⟨b, hbn, ho⟩)))
      · rw [callRequests, if_neg htx] at hr
        rcases List.mem_singleton.1 hr with rfl
        exact Or.inr (Or.inr (Or.inr (Or.inl ⟨tx, hbeq, Or.inr rfl⟩)))
    | none =>
      simp only [h1] at hr
      cases h2 : (dataPlaneClient o).updateHealthChecksInTransaction tx health with
      | some e2 =>
        simp only [h2] at hr
        simp only [List.flatMap_cons, List.flatMap_nil, List.append_nil,
          List.mem_append] at hr
        rcases hr with hr | hr | hr | hr
        · rcases mem_beginRequests o bn r hr with rfl | rfl
          · exact Or.inl rfl
          · exact Or.inr (Or.inl rfl)
        · obtain ⟨b, hbn, ho⟩ := mem_updateRequests o bn tx backends r hr
          exact Or.inr (Or.inr (Or.inr (Or.inr ⟨b, hbn, ho⟩)))
        · rcases List.mem_singleton.1 hr with rfl
          exact Or.inr (Or.inr (Or.inl rfl))
        · rw [callRequests, if_neg htx] at hr
          rcases List.mem_singleton.1 hr with rfl
          exact Or.inr (Or.inr (Or.inr (Or.inl ⟨tx, hbeq, Or.inr rfl⟩)))
      | none =>
        simp only [h2] at hr
        cases h3 : (dataPlaneClient o).commitTransaction tx with
        | some e3 =>
          simp only [h3] at hr
          simp only [List.flatMap_cons, List.flatMap_nil, List.append_nil,
            List.mem_append] at hr
          rcases hr with hr | hr | hr | hr | hr
          · rcases mem_beginRequests o bn r hr with rfl | rfl
            · exact Or.inl rfl
            · exact Or.inr (Or.inl rfl)
          · obtain ⟨b, hbn, ho⟩ := mem_updateRequests o bn tx backends r hr
            exact Or.inr (Or.inr (Or.inr (Or.inr ⟨b, hbn, ho⟩)))
          · rcases List.mem_singleton.1 hr with rfl
            exact Or.inr (Or.inr (Or.inl rfl))
          · rw [callRequests, if_neg htx] at hr
            rcases List.mem_singleton.1 hr with rfl
            exact Or.inr (Or.inr (Or.inr (Or.inl ⟨tx, hbeq, Or.inl rfl⟩)))
          · rw [callRequests, if_neg htx] at hr
            rcases List.mem_singleton.1 hr with rfl
            exact Or.inr (Or.inr (Or.inr (Or.inl ⟨tx, hbeq, Or.inr rfl⟩)))
        | none =>
          simp only [h3] at hr
          simp only [List.flatMap_cons, List.flatMap_nil, List.append_nil,
            List.mem_append] at hr
          rcases hr with hr | hr | hr | hr
          · rcases mem_beginRequests o bn r hr with rfl | rfl
            · exact Or.inl rfl
            · exact Or.inr (Or.inl rfl)
          · obtain ⟨b, hbn, ho⟩ := mem_updateRequests o bn tx backends r hr
            exact Or.inr (Or.inr (Or.inr (Or.inr ⟨b, hbn, ho⟩)))
          · rcases List.mem_singleton.1 hr with rfl
            exact Or.inr (Or.inr (Or.inl rfl))
          · rw [callRequests, if_neg htx] at hr
            rcases List.mem_singleton.1 hr with rfl
            exact Or.inr (Or.inr (Or.inr (Or.inl ⟨tx, hbeq, Or.inl rfl⟩)))

/-- C10: every request of one `SyncBackends` pass against the
`DataPlaneClient` is one of: version GET, transaction-create POST,
per-server update PUT / fallback create POST for a desired server,
backend-level health PUT, transaction commit PUT, transaction abort DELETE.
Every DELETE is the abort of the transaction obtained from begin — never a
server path — and every request carrying a server payload targets a name
from the desired backend list, so a server whose name is absent from that
list is touched by no request of the pass. -/
theorem syncBackends_no_server_delete (o : DataPlaneOracle) (bn : String)
    (backends : List BackendServer) (health : HealthCheckConfig) :
    ∀ r ∈ syncRequestTrace o bn backends health,
      (r.method = .delete →
        (∃ tx, BeginTransaction o.versionFetch o.txCreate = .ok tx ∧
          r.pathSegs = transactionPath tx) ∧
        r.serverBody = none ∧
        (∀ name, r.pathSegs ≠ serverPath bn name) ∧
        r.pathSegs ≠ serversPath bn)
      ∧ (∀ p, r.serverBody = some p →
          p.name ∈ backends.map BackendServer.name ∧
          ((r.method = .put ∧ r.pathSegs = serverPath bn p.name) ∨
           (r.method = .post ∧ r.pathSegs = serversPath bn)))
      ∧ (r.pathSegs = versionPath ∨ r.pathSegs = transactionsPath ∨
         r.pathSegs = backendPath bn ∨ (∃ tx, r.pathSegs = transactionPath tx) ∨
         (∃ b ∈ backends, r.pathSegs = serverPath bn b.name ∨
            r.pathSegs = serversPath bn)) := by
  intro r hr
  rcases syncTrace_request_shapes o bn backends health r hr with
    rfl | rfl | rfl | ⟨tx, htx, rfl | rfl⟩ | ⟨b, hbmem, rfl | rfl⟩
  · exact ⟨fun h => by simp at h, fun p hp => by simp at hp, Or.inl rfl⟩
  · exact ⟨fun h => by simp at h, fun p hp => by simp at hp,
      Or.inr (Or.inl rfl)⟩
  · exact ⟨fun h => by simp at h, fun p hp => by simp at hp,
      Or.inr (Or.inr (Or.inl rfl))⟩
  · exact ⟨fun h => by simp at h, fun p hp => by simp at hp,
      Or.inr (Or.inr (Or.inr (Or.inl ⟨tx, rfl⟩)))⟩
  · refine ⟨fun _ => ⟨⟨tx, htx, rfl⟩, rfl,
      fun name => transactionPath_ne_serverPath tx bn name,
      transactionPath_ne_serversPath tx bn⟩, fun p hp => by simp at hp,
      Or.inr (Or.inr (Or.inr (Or.inl ⟨tx, rfl⟩)))⟩
  · refine ⟨fun h => by simp at h, fun p hp => ?_,
      Or.inr (Or.inr (Or.inr (Or.inr ⟨b, hbmem, Or.inl rfl⟩)))⟩
    cases hp
    exact ⟨List.mem_map.2 ⟨b, hbmem, rfl⟩, Or.inl ⟨rfl, rfl⟩⟩
  · refine ⟨fun h => by simp at h, fun p hp => ?_,
      Or.inr (Or.inr (Or.inr (Or.inr ⟨b, hbmem, Or.inr rfl⟩)))⟩
    cases hp
    exact ⟨List.mem_map.2 ⟨b, hbmem, rfl⟩, Or.inr ⟨rfl, rfl⟩⟩

/-- Witness for C10: in a concrete pass whose commit fails, the abort
DELETE request appears and the theorem applies to it — it carries no server
payload. -/
theorem syncBackends_no_server_delete_witness :
    ({ method := .delete, pathSegs := transactionPath "tx-abc",
       serverBody := none } : Request).serverBody = none :=
  ((syncBackends_no_server_delete demoOracle "be" [sampleServer]
      { intervalSeconds := 5, riseCount := 2, fallCount := 2 }
      { method := .delete, pathSegs := transactionPath "tx-abc",
        serverBody := none }
      (by decide)).1 rfl).2.1

end HaproxySync

